import Mathlib

/-!
Shallow embedding of the track/container processing core of the `trimmer`
repository (src/track.py, src/codec.py, src/container.py, src/utils.py,
src/ffmpeg.py), together with theorems settling the frozen claims about it.

Numeric convention: Python floats are idealised as exact rationals (ℚ),
Python ints as ℤ/ℕ.  Python `int(x)` truncates toward zero and `x // y`
on floats is floor division; both are embedded explicitly below.
-/

namespace Trimmer

/-! ## Substring containment (Python `pat in s`) -/

/-- `pat in s` on Python strings: `pat` occurs as a contiguous substring of `s`.
Implemented over character lists. -/
def listContainsSub (l p : List Char) : Bool :=
  (List.range (l.length + 1)).any (fun i => p.isPrefixOf (l.drop i))

/-- Python `pat in s` for strings. -/
def strContainsSub (s pat : String) : Bool :=
  listContainsSub s.toList pat.toList

/-- Propositional form of substring containment. -/
def ContainsSub (s pat : String) : Prop :=
  ∃ i, pat.toList.isPrefixOf (s.toList.drop i) = true

theorem listContainsSub_iff (l p : List Char) :
    listContainsSub l p = true ↔ ∃ i, p.isPrefixOf (l.drop i) = true := by
  unfold listContainsSub
  rw [List.any_eq_true]
  constructor
  · rintro ⟨i, -, hi⟩
    exact ⟨i, hi⟩
  · rintro ⟨i, hi⟩
    by_cases h : i ≤ l.length
    · exact ⟨i, List.mem_range.mpr (Nat.lt_succ_of_le h), hi⟩
    · refine ⟨l.length, List.mem_range.mpr (Nat.lt_succ_of_le le_rfl), ?_⟩
      rw [List.drop_length]
      rw [List.drop_eq_nil_of_le (le_of_not_le h)] at hi
      exact hi

theorem strContainsSub_iff (s pat : String) :
    strContainsSub s pat = true ↔ ContainsSub s pat :=
  listContainsSub_iff s.toList pat.toList

/-! ## Track model — from src/track.py

`Track` is the base class carrying `index`, `codec`, `language`, `title`,
`duration` and a mutable `keep` flag (default `True`); `VideoTrack` adds
`frame_rate` and the `is_h265` property, `AudioTrack` adds `channels`,
`SubtitleTrack` and `AttachmentTrack` add nothing (the latter forces
`language='und'`, `duration=0` at construction, which we do not need to
enforce in the type). -/

structure TrackBase where
  index : ℕ
  codec : String
  language : String
  title : String
  duration : ℚ
  keep : Bool
deriving DecidableEq

inductive Track
  | video (base : TrackBase) (frame_rate : ℚ)
  | audio (base : TrackBase) (channels : ℕ)
  | subtitle (base : TrackBase)
  | attachment (base : TrackBase)
deriving DecidableEq

def Track.base : Track → TrackBase
  | .video b _ => b
  | .audio b _ => b
  | .subtitle b => b
  | .attachment b => b

def Track.index (t : Track) : ℕ := t.base.index
def Track.codec (t : Track) : String := t.base.codec
def Track.duration (t : Track) : ℚ := t.base.duration
def Track.keep (t : Track) : Bool := t.base.keep

def Track.isVideo : Track → Bool
  | .video _ _ => true
  | _ => false

/-- `VideoTrack.is_h265` property (src/track.py:70):
`'hevc' in self.codec or 'h265' in self.codec`. -/
def Track.is_h265 (t : Track) : Bool :=
  strContainsSub t.codec "hevc" || strContainsSub t.codec "h265"

/-! ## Codec catalog — from src/codec.py -/

structure Codec where
  name : String
  presets : List String
  preferred_preset : String
  tunes : List String
  preferred_tune : String
  profiles : List String
  preferred_profile : String
deriving DecidableEq

def LIBX265_CODEC : Codec :=
  { name := "libx265"
    presets := ["ultrafast", "superfast", "veryfast", "faster", "fast",
                "medium", "slow", "slower", "veryslow", "placebo"]
    preferred_preset := "slow"
    tunes := ["psnr", "ssim", "grain", "fastdecode", "zerolatency", "animation"]
    preferred_tune := "grain"
    profiles := ["main", "main444-8", "main10", "main422-10", "main444-10",
                 "main12", "main422-12", "main444-12"]
    preferred_profile := "main" }

def HEVC_NVENC_CODEC : Codec :=
  { name := "hevc_nvenc"
    presets := ["default", "slow", "medium", "fast", "hp", "hq", "bd", "ll",
                "llhq", "llhp", "lossless", "losslesshp",
                "p1", "p2", "p3", "p4", "p5", "p6", "p7"]
    preferred_preset := "p6"
    tunes := ["hq", "ll", "ull", "lossless"]
    preferred_tune := "hq"
    profiles := ["main", "main10", "rext"]
    preferred_profile := "main" }

def HEVC_VIDEOTOOLBOX_CODEC : Codec :=
  { name := "hevc_videotoolbox"
    presets := ["default", "slow", "medium", "fast", "faster", "fastest"]
    preferred_preset := "medium"
    tunes := ["default"]
    preferred_tune := "default"
    profiles := ["main", "main10"]
    preferred_profile := "main" }

def KNOWN_CODECS : List Codec :=
  [LIBX265_CODEC, HEVC_NVENC_CODEC, HEVC_VIDEOTOOLBOX_CODEC]

/-- Python `s.lower()`, restricted to ASCII case mapping (the only case the
codec-preference check exercises: the vendor token `'nvidia'`). -/
def pyLower (s : String) : String :=
  String.mk (s.toList.map Char.toLower)

/-- `prefer_hevc_codec` (src/codec.py:174-185):
`if 'nvidia' in gpu_name.lower() and HEVC_NVENC_CODEC in codecs: return Ok(HEVC_NVENC_CODEC)`;
`if LIBX265_CODEC in codecs: return Ok(LIBX265_CODEC)`;
`return Err("Cannot find supported HEVC codec")`. -/
def prefer_hevc_codec (codecs : List Codec) (gpu_name : String) :
    Except String Codec :=
  if strContainsSub (pyLower gpu_name) "nvidia" = true ∧ HEVC_NVENC_CODEC ∈ codecs then
    .ok HEVC_NVENC_CODEC
  else if LIBX265_CODEC ∈ codecs then
    .ok LIBX265_CODEC
  else
    .error "Cannot find supported HEVC codec"

/-! ## Python numeric helpers -/

/-- Python `int(x)` on a float/rational: truncation toward zero. -/
def pyInt (q : ℚ) : ℤ :=
  if 0 ≤ q then ⌊q⌋ else ⌈q⌉

/-- Python float floor-division `x // n` (with `n` a positive count):
`⌊x / n⌋`, returned as a rational since Python returns a float. -/
def pyFloorDiv (x : ℚ) (n : ℕ) : ℚ :=
  (⌊x / (n : ℚ)⌋ : ℤ)

/-- Python `max(lst)` on a nonempty list given as head and tail. -/
def pyMax (x : ℚ) (xs : List ℚ) : ℚ := xs.foldl max x

/-- Python `min(lst)` on a nonempty list given as head and tail. -/
def pyMin (x : ℚ) (xs : List ℚ) : ℚ := xs.foldl min x

/-! ## Duration estimation — from src/container.py, `Container.__estimate_duration`
(lines 67-107).

The metadata candidates are the parsed `float(...)` values of the `DURATION`
and `duration` container tags when present (`none` when the tag is absent). -/

/-- `ALLOWED_DIFFERENCE = 0.01` (container.py:91). -/
def ALLOWED_DIFFERENCE : ℚ := 1 / 100

/-- `trim_to_one` (container.py:82-96): empty list gives `None`; a singleton
gives its element; with several elements, if `max - min > max * 0.01`
return `sum(lst) // len(lst)` (float floor division), else return `lst[0]`. -/
def trim_to_one : List ℚ → Option ℚ
  | [] => none
  | [x] => some x
  | x :: xs =>
      if pyMax x xs - pyMin x xs > pyMax x xs * ALLOWED_DIFFERENCE then
        some (pyFloorDiv (x + xs.sum) (xs.length + 1))
      else
        some x

/-- The duration candidate list (container.py:68-80): the parsed `DURATION`
tag, then the parsed `duration` tag, then every track's non-zero duration in
track order. -/
def collectDurations (mDURATION mduration : Option ℚ) (tracks : List Track) :
    List ℚ :=
  mDURATION.toList ++ mduration.toList ++
    tracks.filterMap (fun t => if t.duration ≠ 0 then some t.duration else none)

/-- The fps candidate list (container.py:74-78): every video track's non-zero
frame rate, in track order. -/
def collectFps (tracks : List Track) : List ℚ :=
  tracks.filterMap fun t =>
    match t with
    | .video _ fr => if fr ≠ 0 then some fr else none
    | _ => none

structure DurationTriple where
  seconds : ℚ
  frames : ℤ
  fps : ℚ
deriving DecidableEq

/-- `Container.__estimate_duration` (container.py:67-107): reduce both
candidate lists with `trim_to_one`; if either reduction is `None` the triple
is `(0, 0, 0)`, otherwise `(duration_sec, int(duration_sec * frame_rate),
frame_rate)` where `int` truncates toward zero. -/
def estimateDuration (mDURATION mduration : Option ℚ) (tracks : List Track) :
    DurationTriple :=
  match trim_to_one (collectDurations mDURATION mduration tracks),
        trim_to_one (collectFps tracks) with
  | some d, some fr => ⟨d, pyInt (d * fr), fr⟩
  | _, _ => ⟨0, 0, 0⟩

/-! ## ETACalculator — from src/utils.py:128-177.

`time.time()` inside `feed` is modelled by passing the current time
explicitly; all floats are idealised as rationals (`0.2 = 1/5`,
`0.05 = 1/20`, `0.1 = 1/10`). -/

structure ETACalculator where
  start_time : ℚ
  prev_time : ℚ
  prev_percent : ℚ
  eta : ℚ
  speed_avg : Option ℚ
  alpha : ℚ
  update_count : ℕ
deriving DecidableEq

/-- `ETACalculator.reset(start_time, start_percent)` (utils.py:132-139). -/
def ETACalculator.reset (start_time start_percent : ℚ) : ETACalculator :=
  { start_time := start_time
    prev_time := start_time
    prev_percent := start_percent
    eta := 0
    speed_avg := none
    alpha := 1 / 5
    update_count := 0 }

/-- `ETACalculator.feed(percent)` (utils.py:141-174), with the wall clock
passed as `current_time`. -/
def ETACalculator.feed (s : ETACalculator) (current_time percent : ℚ) :
    ETACalculator :=
  let time_diff := current_time - s.prev_time
  if time_diff ≤ 0 ∨ percent ≤ s.prev_percent then
    s
  else
    let progress_diff := percent - s.prev_percent
    let instant_speed := progress_diff / time_diff
    let speed_avg :=
      match s.speed_avg with
      | none => instant_speed
      | some v => (1 - s.alpha) * v + s.alpha * instant_speed
    let update_count := s.update_count + 1
    let alpha := max (1 / 20) ((1 / 5) / (1 + (1 / 10) * (update_count : ℚ)))
    let eta :=
      if speed_avg > 0 then
        let new_eta0 := (100 - percent) / speed_avg
        let new_eta :=
          if new_eta0 > 10 * (current_time - s.start_time) then
            (if s.eta > 0 then s.eta else 0)
          else new_eta0
        if s.eta = 0 then new_eta else (1 - alpha) * s.eta + alpha * new_eta
      else s.eta
    { s with
        speed_avg := some speed_avg
        update_count := update_count
        alpha := alpha
        eta := eta
        prev_time := current_time
        prev_percent := percent }

/-- `ETACalculator.get()` (utils.py:176-177). -/
def ETACalculator.get (s : ETACalculator) : ℚ := s.eta

/-- Fold a sequence of `(current_time, percent)` samples through `feed`. -/
def ETACalculator.feedAll (s : ETACalculator) (samples : List (ℚ × ℚ)) :
    ETACalculator :=
  samples.foldl (fun st sm => st.feed sm.1 sm.2) s

/-! ## Backup naming and the commit sequence — from src/utils.py:49-55 and
src/container.py:256-268.

The file system is abstracted as an existence predicate `ex : String → Bool`
(`os.path.exists`).  `unique_bak_name` loops `i = 0, 1, 2, …` until
`f'{file}.bak{i}'` does not exist; the loop terminates exactly when some
such name is free, which is taken as a hypothesis, and `Nat.find` returns
the first `i` the loop would accept. -/

def bakName (file : String) (i : ℕ) : String :=
  file ++ ".bak" ++ toString i

/-- `unique_bak_name` (utils.py:49-55). -/
def unique_bak_name (ex : String → Bool) (file : String)
    (h : ∃ i, ex (bakName file i) = false) : String :=
  bakName file (Nat.find h)

/-- Python `s.rfind(c)` on a character list: index of the last occurrence,
`-1` when absent. -/
def pyRfind (c : Char) (l : List Char) : ℤ :=
  match (l.enum.filter (fun p => p.2 = c)).getLast? with
  | some p => (p.1 : ℤ)
  | none => -1

/-- `os.path.splitext(p)[0]` for POSIX paths (CPython `genericpath._splitext`
with `sep='/'`): if the last `'.'` lies after the last `'/'` and some
character strictly between them is not a `'.'`, the root is everything
before that last `'.'`; otherwise the whole string. -/
def splitextRoot (file : String) : String :=
  let p := file.toList
  let sepIndex := pyRfind '/' p
  let dotIndex := pyRfind '.' p
  if dotIndex > sepIndex then
    if (List.range p.length).any
        (fun i => decide (sepIndex < (i : ℤ)) && decide ((i : ℤ) < dotIndex) &&
          (p.getD i '.' != '.')) then
      String.mk (p.take dotIndex.toNat)
    else file
  else file

/-- A file-system move (`shutil.move`, a rename for same-filesystem paths). -/
inductive FsOp
  | move (src dst : String)
deriving DecidableEq

/-- `Container.remux` output file name (container.py:229):
`self.file + '.trimmed.' + self.container.ext`. -/
def remuxOutfile (file ext : String) : String :=
  file ++ ".trimmed." ++ ext

/-- `Container.remux` destination name (container.py:264-265):
`os.path.splitext(self.file)[0] + '.' + self.container.ext`. -/
def remuxDestfile (file ext : String) : String :=
  splitextRoot file ++ "." ++ ext

/-- The file moves performed by `Container.remux` after the remuxer
succeeds (container.py:258-267): back up the original, then move the
temporary output to the destination name. -/
def remuxCommitOps (ex : String → Bool) (file ext : String)
    (h : ∃ i, ex (bakName file i) = false) : List FsOp :=
  [FsOp.move file (unique_bak_name ex file h),
   FsOp.move (remuxOutfile file ext) (remuxDestfile file ext)]

/-! ## The ffmpeg argument builder — from src/ffmpeg.py:338-369 (class
`FFMpegRemuxer`) and the per-track loop of `Container.remux`
(container.py:236-245).

`FFMpegRemuxer` accumulates `self.args`; each builder method appends a fixed
group of tokens. -/

/-- `FFMpegRemuxer.__init__` (ffmpeg.py:344-345). -/
def remuxerInit (ffmpeg file : String) : List String :=
  [ffmpeg, "-i", file, "-y"]

/-- `audio_as_is` (ffmpeg.py:347-349). -/
def audio_as_is (args : List String) : List String :=
  args ++ ["-c:a", "copy"]

/-- `subtitles_as_is` (ffmpeg.py:351-353). -/
def subtitles_as_is (args : List String) : List String :=
  args ++ ["-c:s", "copy"]

/-- `video_as_is` (ffmpeg.py:355-357). -/
def video_as_is (args : List String) : List String :=
  args ++ ["-c:v", "copy"]

/-- `video_to_hevc` (ffmpeg.py:359-361). -/
def video_to_hevc (args : List String)
    (codecName preset tune profile : String) : List String :=
  args ++ ["-c:v", codecName, "-preset", preset, "-tune", tune,
           "-profile:v", profile, "-vtag", "hvc1"]

/-- `keep_track` (ffmpeg.py:367-369): `-map 0:<track.index>`. -/
def keep_track (args : List String) (t : Track) : List String :=
  args ++ ["-map", "0:" ++ toString t.index]

/-- One iteration of the `for track in self.tracks` loop of
`Container.remux` (container.py:236-245): a video track is re-encoded when
`is_h265` is false and stream-copied otherwise, and every track with
`keep` set contributes its `-map` flag. -/
def remuxTrackStep (codecName preset tune profile : String)
    (args : List String) (t : Track) : List String :=
  let args :=
    match t with
    | .video _ _ =>
        if ¬ t.is_h265 then video_to_hevc args codecName preset tune profile
        else video_as_is args
    | _ => args
  if t.keep then keep_track args t else args

/-- The whole per-track loop of `Container.remux`, folded over the track
list from the arguments already accumulated. -/
def buildTrackArgs (codecName preset tune profile : String)
    (init : List String) (tracks : List Track) : List String :=
  tracks.foldl (remuxTrackStep codecName preset tune profile) init

/-- The tokens a single track contributes to the argv. -/
def trackContribution (codecName preset tune profile : String) (t : Track) :
    List String :=
  (match t with
   | .video _ _ =>
       if ¬ t.is_h265 then
         ["-c:v", codecName, "-preset", preset, "-tune", tune,
          "-profile:v", profile, "-vtag", "hvc1"]
       else ["-c:v", "copy"]
   | _ => []) ++
  (if t.keep then ["-map", "0:" ++ toString t.index] else [])

/-! ## The track probe

`container.py` imports `get_container_metadata` and calls
`FFMpegRemuxer.set_format_metadata`, neither of which exists in
`src/ffmpeg.py`; likewise `gui/main_window.py` renders probed tracks of
class `track.AttachmentTrack`.  The current generation of `ffmpeg.py` is
therefore missing from `src/` — the `src/ffmpeg.py` present is the legacy
generation (three sub-probes, no attachment support, its own copies of the
track classes).  The current probe is modelled from the spec below; its
structure (one ffprobe invocation per stream-type selector, run in order
with the first failure propagated, blocks concatenated, empty union an
error) coincides with the legacy `get_video_tracks`
(src/ffmpeg.py:227-336) except for the added attachment sub-probe. -/

inductive StreamSel
  | video
  | audio
  | subtitle
  | attachment
deriving DecidableEq

/-- Modelled from the spec: the current `get_video_tracks` issues four
separate ffprobe invocations, one per stream-type selector, in the fixed
order video, audio, subtitle, attachment (spec §4.3). -/
def probeOrder : List StreamSel :=
  [StreamSel.video, StreamSel.audio, StreamSel.subtitle, StreamSel.attachment]

/-- Run the sub-probes in order, concatenating their track blocks and
propagating the first failure immediately (the remaining sub-probes are
not run).  Each sub-probe is abstracted as `probe : StreamSel →
Except String (List Track)` (a non-zero ffprobe exit is the `error` case,
mirroring `process_streams`, src/ffmpeg.py:251-298). -/
def runProbes (probe : StreamSel → Except String (List Track)) :
    List StreamSel → Except String (List Track)
  | [] => .ok []
  | k :: ks =>
      match probe k with
      | .error e => .error e
      | .ok ts =>
          match runProbes probe ks with
          | .error e => .error e
          | .ok rest => .ok (ts ++ rest)

/-- Modelled from the spec: the current `get_video_tracks` (missing from
`src/`; legacy form at src/ffmpeg.py:300-336).  Runs the four sub-probes in
`probeOrder` and fails with `'No tracks found'` when the concatenation is
empty. -/
def get_video_tracks (probe : StreamSel → Except String (List Track)) :
    Except String (List Track) :=
  match runProbes probe probeOrder with
  | .error e => .error e
  | .ok tracks => if tracks = [] then .error "No tracks found" else .ok tracks

/-! ## The progress stream — from src/ffmpeg.py:338-342 and 388-407
(`FFMpegRemuxer.process`).

The child's stdout is modelled as the list of lines `readline` returns
before EOF.  The two regular expressions are anchored at the start of the
line: `frame=(\d+)` and `fps=(\d+\.\d+)`. -/

/-- Value of a decimal digit run (already checked nonempty, all digits). -/
def digitsVal (l : List Char) : ℕ :=
  l.foldl (fun a c => a * 10 + (c.toNat - 48)) 0

/-- `re.match(r'frame=(?P<frame>\d+)', line)`: the maximal digit run right
after a leading `frame=`, if nonempty. -/
def matchFrame (line : String) : Option ℕ :=
  let cs := line.toList
  if "frame=".toList.isPrefixOf cs then
    let ds := (cs.drop 6).takeWhile Char.isDigit
    if ds.isEmpty then none else some (digitsVal ds)
  else none

/-- `re.match(r'fps=(?P<fps>\d+\.\d+)', line)`: digits, a dot, digits right
after a leading `fps=`, parsed as a rational. -/
def matchFps (line : String) : Option ℚ :=
  let cs := line.toList
  if "fps=".toList.isPrefixOf cs then
    let rest := cs.drop 4
    let ds := rest.takeWhile Char.isDigit
    if ds.isEmpty then none
    else
      match rest.drop ds.length with
      | '.' :: rest2 =>
          let fs := rest2.takeWhile Char.isDigit
          if fs.isEmpty then none
          else some ((digitsVal ds : ℚ) + (digitsVal fs : ℚ) / (10 ^ fs.length : ℚ))
      | _ => none
  else none

/-- A line is a progress line when either pattern matches it. -/
def progressLine (line : String) : Bool :=
  (matchFrame line).isSome || (matchFps line).isSome

structure ProgressState where
  frame : ℕ
  fps : ℚ
  updated : Bool
deriving DecidableEq

/-- Loop state before the first line: `frame = 0`, `fps = 0`,
`updated = True` (ffmpeg.py:388-390). -/
def progressInit : ProgressState :=
  { frame := 0, fps := 0, updated := true }

/-- The body of the stdout loop for one line (ffmpeg.py:396-406): each
matching pattern stores its value and sets `updated`; if `updated` is set
the callback fires with `(frame, fps)` and the flag clears.  Empty lines
(`if line:`) do nothing.  Returns the new state and the callback
invocations this line produced. -/
def progressStep (s : ProgressState) (line : String) :
    ProgressState × List (ℕ × ℚ) :=
  if line = "" then (s, [])
  else
    let s :=
      match matchFrame line with
      | some n => { s with frame := n, updated := true }
      | none => s
    let s :=
      match matchFps line with
      | some q => { s with fps := q, updated := true }
      | none => s
    if s.updated then ({ s with updated := false }, [(s.frame, s.fps)])
    else (s, [])

/-- All callback invocations produced by streaming the given lines from a
state. -/
def progressRun (s : ProgressState) : List String → List (ℕ × ℚ)
  | [] => []
  | l :: ls =>
      let p := progressStep s l
      p.2 ++ progressRun p.1 ls

/-- The full callback trace of `FFMpegRemuxer.process` over a stdout
stream. -/
def progressTrace (lines : List String) : List (ℕ × ℚ) :=
  progressRun progressInit lines

/-! # Theorems -/

/-- C6: `prefer_hevc_codec` returns the vendor hardware codec
(`hevc_nvenc`) whenever the GPU description contains the vendor token
`nvidia` (case-insensitively) and that codec is in the supported list;
otherwise it returns the software encoder (`libx265`) whenever that is in
the supported list; otherwise it returns an error — for every
(supported-codec list, GPU string) input. -/
theorem c6_prefer_hevc (codecs : List Codec) (gpu_name : String) :
    (ContainsSub (pyLower gpu_name) "nvidia" ∧ HEVC_NVENC_CODEC ∈ codecs →
      prefer_hevc_codec codecs gpu_name = .ok HEVC_NVENC_CODEC) ∧
    (¬ (ContainsSub (pyLower gpu_name) "nvidia" ∧ HEVC_NVENC_CODEC ∈ codecs) →
      LIBX265_CODEC ∈ codecs →
      prefer_hevc_codec codecs gpu_name = .ok LIBX265_CODEC) ∧
    (¬ (ContainsSub (pyLower gpu_name) "nvidia" ∧ HEVC_NVENC_CODEC ∈ codecs) →
      LIBX265_CODEC ∉ codecs →
      prefer_hevc_codec codecs gpu_name =
        .error "Cannot find supported HEVC codec") := by
  unfold prefer_hevc_codec
  refine ⟨fun h => ?_, fun h h265 => ?_, fun h h265 => ?_⟩
  · rw [if_pos ⟨(strContainsSub_iff _ _).mpr h.1, h.2⟩]
  · rw [if_neg (fun hc => h ⟨(strContainsSub_iff _ _).mp hc.1, hc.2⟩),
      if_pos h265]
  · rw [if_neg (fun hc => h ⟨(strContainsSub_iff _ _).mp hc.1, hc.2⟩),
      if_neg h265]

/-- Witness for C6 at a concrete NVIDIA GPU string and the full catalog. -/
theorem c6_prefer_hevc_witness :
    prefer_hevc_codec KNOWN_CODECS "NVIDIA GeForce RTX 3060" =
      .ok HEVC_NVENC_CODEC :=
  (c6_prefer_hevc KNOWN_CODECS "NVIDIA GeForce RTX 3060").1
    ⟨(strContainsSub_iff _ _).mp (by decide), by decide⟩

/-- C10: `prefer_hevc_codec` never returns the `hevc_videotoolbox` catalog
entry; with `hevc_videotoolbox` as the only supported codec it returns the
'Cannot find supported HEVC codec' error for every GPU string. -/
theorem c10_videotoolbox_never_selected :
    (∀ (codecs : List Codec) (gpu_name : String),
      prefer_hevc_codec codecs gpu_name ≠ .ok HEVC_VIDEOTOOLBOX_CODEC) ∧
    (∀ gpu_name : String,
      prefer_hevc_codec [HEVC_VIDEOTOOLBOX_CODEC] gpu_name =
        .error "Cannot find supported HEVC codec") := by
  constructor
  · intro codecs gpu_name h
    unfold prefer_hevc_codec at h
    split_ifs at h with h1 h2
    · exact absurd (Except.ok.inj h) (by decide)
    · exact absurd (Except.ok.inj h) (by decide)
  · intro gpu_name
    unfold prefer_hevc_codec
    rw [if_neg (fun h => absurd h.2 (by decide)), if_neg (by decide)]

/-- Witness for C10: a host whose only supported HEVC encoder is
`hevc_videotoolbox` gets the error. -/
theorem c10_videotoolbox_never_selected_witness :
    prefer_hevc_codec [HEVC_VIDEOTOOLBOX_CODEC] "Apple M1" =
      .error "Cannot find supported HEVC codec" :=
  c10_videotoolbox_never_selected.2 "Apple M1"

/-- An invalid sample (non-positive time delta or non-increasing percent)
leaves the calculator state untouched. -/
theorem ETACalculator.feed_stalled (s : ETACalculator) (t p : ℚ)
    (h : t - s.prev_time ≤ 0 ∨ p ≤ s.prev_percent) : s.feed t p = s := by
  unfold ETACalculator.feed
  simp only []
  rw [if_pos h]

/-- A whole sequence of samples, each invalid against the state's previous
sample, leaves the state untouched. -/
theorem ETACalculator.feedAll_stalled (samples : List (ℚ × ℚ)) :
    ∀ s : ETACalculator,
      (∀ sm ∈ samples, sm.1 - s.prev_time ≤ 0 ∨ sm.2 ≤ s.prev_percent) →
      s.feedAll samples = s := by
  induction samples with
  | nil => intro s _; rfl
  | cons sm sms ih =>
      intro s h
      have h0 := ETACalculator.feed_stalled s sm.1 sm.2 (h sm (List.mem_cons_self _ _))
      show ETACalculator.feedAll (s.feed sm.1 sm.2) sms = s
      rw [h0]
      exact ih s (fun x hx => h x (List.mem_cons_of_mem _ hx))

/-- C8: a `feed(percent)` call whose percent has not strictly increased, or
whose time delta is not positive, leaves the `ETACalculator` state (hence
`get()`) completely unchanged, and `get()` returns 0 when no valid sample
has been fed since the last reset. -/
theorem c8_eta_stall (s : ETACalculator) (t p : ℚ)
    (start_time start_percent : ℚ) (samples : List (ℚ × ℚ)) :
    (t - s.prev_time ≤ 0 ∨ p ≤ s.prev_percent →
      s.feed t p = s ∧ (s.feed t p).get = s.get) ∧
    ((∀ sm ∈ samples, sm.1 - start_time ≤ 0 ∨ sm.2 ≤ start_percent) →
      ((ETACalculator.reset start_time start_percent).feedAll samples).get
        = 0) := by
  constructor
  · intro h
    exact ⟨ETACalculator.feed_stalled s t p h,
      by rw [ETACalculator.feed_stalled s t p h]⟩
  · intro h
    rw [ETACalculator.feedAll_stalled samples _ (fun sm hm => h sm hm)]
    rfl

/-- Witness for C8: a zero time delta and a stalled two-sample run. -/
theorem c8_eta_stall_witness :
    (ETACalculator.reset 0 0).feed 0 50 = ETACalculator.reset 0 0 ∧
    ((ETACalculator.reset 0 0).feedAll [(0, 50), (1, 0)]).get = 0 :=
  ⟨((c8_eta_stall (ETACalculator.reset 0 0) 0 50 0 0 []).1
      (Or.inl (by show (0:ℚ) - 0 ≤ 0; norm_num))).1,
   (c8_eta_stall (ETACalculator.reset 0 0) 0 50 0 0 [(0, 50), (1, 0)]).2
      (by
        intro sm hm
        rcases List.mem_cons.mp hm with h | hm2
        · subst h; left; norm_num
        · rcases List.mem_cons.mp hm2 with h | h
          · subst h; right; norm_num
          · cases h)⟩

/-- C1: on remux success the commit sequence picks the backup name
`<inputFile>.bak<i>` for the smallest `i ≥ 0` whose path does not exist,
renames the original input file to that backup path, and then moves the
temporary output `<inputFile>.trimmed.<ext>` to
`<input base name without extension>.<ext>`. -/
theorem c1_commit_backup (ex : String → Bool) (file ext : String)
    (h : ∃ i, ex (bakName file i) = false) :
    (∃ i, unique_bak_name ex file h = bakName file i ∧
          ex (bakName file i) = false ∧
          ∀ j, j < i → ex (bakName file j) = true) ∧
    remuxCommitOps ex file ext h =
      [FsOp.move file (unique_bak_name ex file h),
       FsOp.move (file ++ ".trimmed." ++ ext)
         (splitextRoot file ++ "." ++ ext)] := by
  refine ⟨⟨Nat.find h, rfl, Nat.find_spec h, fun j hj => ?_⟩, rfl⟩
  have hm := Nat.find_min h hj
  cases hb : ex (bakName file j) with
  | true => rfl
  | false => exact absurd hb hm

/-- The file system used in the C1 witness: only `movie.mkv.bak0` exists. -/
def exBak0 : String → Bool := fun s => s == "movie.mkv.bak0"

/-- `exBak0` leaves `movie.mkv.bak1` free. -/
def exBak0_free : ∃ i, exBak0 (bakName "movie.mkv" i) = false :=
  ⟨1, by decide⟩

/-- Witness for C1: with `movie.mkv.bak0` already present the backup goes to
`movie.mkv.bak1` (never overwriting `.bak0`), and the commit moves are the
rename to the backup followed by the move of the `.trimmed.mkv` temporary
onto `movie.mkv`. -/
theorem c1_commit_backup_witness :
    unique_bak_name exBak0 "movie.mkv" exBak0_free = "movie.mkv.bak1" ∧
    remuxCommitOps exBak0 "movie.mkv" "mkv" exBak0_free =
      [FsOp.move "movie.mkv" "movie.mkv.bak1",
       FsOp.move "movie.mkv.trimmed.mkv" "movie.mkv"] := by
  obtain ⟨⟨i, hbak, hfree, hmin⟩, hops⟩ :=
    c1_commit_backup exBak0 "movie.mkv" "mkv" exBak0_free
  have h0 : exBak0 (bakName "movie.mkv" 0) = true := by decide
  have h1 : exBak0 (bakName "movie.mkv" 1) = false := by decide
  have hi : i = 1 := by
    rcases Nat.lt_trichotomy i 1 with hlt | heq | hgt
    · interval_cases i
      rw [h0] at hfree
      exact absurd hfree (by decide)
    · exact heq
    · rw [hmin 1 hgt] at h1
      exact absurd h1 (by decide)
  subst hi
  have hname : unique_bak_name exBak0 "movie.mkv" exBak0_free =
      "movie.mkv.bak1" := by
    rw [hbak]; rfl
  refine ⟨hname, ?_⟩
  rw [hops, hname]
  rfl

/-- C4: the track probe issues four separate ffprobe invocations, one per
stream-type selector (video, audio, subtitle, attachment), and the combined
track list is the concatenation video-block, audio-block, subtitle-block,
attachment-block, each block exactly as reported by its sub-probe (hence
preserving its relative order). -/
theorem c4_probe_order (probe : StreamSel → Except String (List Track))
    (vs as ss ats : List Track)
    (hv : probe .video = .ok vs) (ha : probe .audio = .ok as)
    (hs : probe .subtitle = .ok ss) (hat : probe .attachment = .ok ats) :
    probeOrder = [.video, .audio, .subtitle, .attachment] ∧
    probeOrder.length = 4 ∧ probeOrder.Nodup ∧
    runProbes probe probeOrder = .ok (vs ++ as ++ ss ++ ats) ∧
    get_video_tracks probe =
      (if vs ++ as ++ ss ++ ats = [] then .error "No tracks found"
       else .ok (vs ++ as ++ ss ++ ats)) := by
  have hrun : runProbes probe probeOrder = .ok (vs ++ as ++ ss ++ ats) := by
    simp only [probeOrder, runProbes, hv, ha, hs, hat, List.append_nil,
      List.append_assoc]
  refine ⟨rfl, rfl, by decide, hrun, ?_⟩
  unfold get_video_tracks
  rw [hrun]

/-- Sample tracks for the probe witnesses. -/
def sampleVideo : Track := .video ⟨0, "h264", "und", "default", 0, true⟩ 24
def sampleAudio : Track := .audio ⟨1, "aac", "eng", "default", 0, true⟩ 2
def sampleSubtitle : Track := .subtitle ⟨2, "subrip", "eng", "default", 0, true⟩
def sampleAttachment : Track := .attachment ⟨3, "ttf", "und", "font", 0, true⟩

/-- A probe in which every sub-probe succeeds. -/
def probeAllOk : StreamSel → Except String (List Track)
  | .video => .ok [sampleVideo]
  | .audio => .ok [sampleAudio]
  | .subtitle => .ok []
  | .attachment => .ok [sampleAttachment]

/-- Witness for C4: the blocks come back concatenated in probe order. -/
theorem c4_probe_order_witness :
    get_video_tracks probeAllOk =
      .ok [sampleVideo, sampleAudio, sampleAttachment] := by
  have h := (c4_probe_order probeAllOk [sampleVideo] [sampleAudio] []
    [sampleAttachment] rfl rfl rfl rfl).2.2.2.2
  simpa using h

/-- C7: the track probe errors exactly when some sub-probe fails — the
first failure is propagated as the whole probe's failure, independently of
the later sub-probes (which are not run) — or when the concatenated list is
empty (error `'No tracks found'`); otherwise it returns the track list. -/
theorem c7_probe_errors (probe : StreamSel → Except String (List Track)) :
    (∀ e, probe .video = .error e → get_video_tracks probe = .error e) ∧
    (∀ e vs, probe .video = .ok vs → probe .audio = .error e →
      get_video_tracks probe = .error e) ∧
    (∀ e vs as, probe .video = .ok vs → probe .audio = .ok as →
      probe .subtitle = .error e → get_video_tracks probe = .error e) ∧
    (∀ e vs as ss, probe .video = .ok vs → probe .audio = .ok as →
      probe .subtitle = .ok ss → probe .attachment = .error e →
      get_video_tracks probe = .error e) ∧
    (∀ vs as ss ats, probe .video = .ok vs → probe .audio = .ok as →
      probe .subtitle = .ok ss → probe .attachment = .ok ats →
      (vs ++ as ++ ss ++ ats = [] →
        get_video_tracks probe = .error "No tracks found") ∧
      (vs ++ as ++ ss ++ ats ≠ [] →
        get_video_tracks probe = .ok (vs ++ as ++ ss ++ ats))) ∧
    (∀ e, get_video_tracks probe = .error e →
      (∃ k ∈ probeOrder, probe k = .error e) ∨
      (e = "No tracks found" ∧ runProbes probe probeOrder = .ok [])) := by
  refine ⟨?_, ?_, ?_, ?_, ?_, ?_⟩
  · intro e hv
    simp only [get_video_tracks, probeOrder, runProbes, hv]
  · intro e vs hv ha
    simp only [get_video_tracks, probeOrder, runProbes, hv, ha]
  · intro e vs as hv ha hs
    simp only [get_video_tracks, probeOrder, runProbes, hv, ha, hs]
  · intro e vs as ss hv ha hs hat
    simp only [get_video_tracks, probeOrder, runProbes, hv, ha, hs, hat]
  · intro vs as ss ats hv ha hs hat
    have h := (c4_probe_order probe vs as ss ats hv ha hs hat).2.2.2.2
    constructor
    · intro he; rw [h, if_pos he]
    · intro he; rw [h, if_neg he]
  · intro e he
    cases hv : probe .video with
    | error ev =>
        simp only [get_video_tracks, probeOrder, runProbes, hv] at he
        exact Or.inl ⟨.video, by decide, by rw [hv, Except.error.inj he]⟩
    | ok vs =>
        cases ha : probe .audio with
        | error ea =>
            simp only [get_video_tracks, probeOrder, runProbes, hv, ha] at he
            exact Or.inl ⟨.audio, by decide, by rw [ha, Except.error.inj he]⟩
        | ok as =>
            cases hs : probe .subtitle with
            | error es =>
                simp only [get_video_tracks, probeOrder, runProbes,
                  hv, ha, hs] at he
                exact Or.inl ⟨.subtitle, by decide,
                  by rw [hs, Except.error.inj he]⟩
            | ok ss =>
                cases hat : probe .attachment with
                | error eat =>
                    simp only [get_video_tracks, probeOrder, runProbes,
                      hv, ha, hs, hat] at he
                    exact Or.inl ⟨.attachment, by decide,
                      by rw [hat, Except.error.inj he]⟩
                | ok ats =>
                    simp only [get_video_tracks, probeOrder, runProbes,
                      hv, ha, hs, hat, List.append_nil] at he
                    by_cases hnil : vs ++ (as ++ (ss ++ ats)) = []
                    · rw [if_pos hnil] at he
                      refine Or.inr ⟨(Except.error.inj he).symm, ?_⟩
                      simp only [probeOrder, runProbes, hv, ha, hs, hat,
                        List.append_nil, hnil]
                    · rw [if_neg hnil] at he
                      exact Except.noConfusion he

/-- A probe whose audio sub-probe fails; the later sub-probes are
irrelevant to the result. -/
def probeAudioFails : StreamSel → Except String (List Track)
  | .video => .ok [sampleVideo]
  | .audio => .error "Failed to get a streams"
  | .subtitle => .ok [sampleSubtitle]
  | .attachment => .ok [sampleAttachment]

/-- Witness for C7: the audio failure is the probe's failure. -/
theorem c7_probe_errors_witness :
    get_video_tracks probeAudioFails = .error "Failed to get a streams" :=
  (c7_probe_errors probeAudioFails).2.1 "Failed to get a streams"
    [sampleVideo] rfl rfl

/-- With the `updated` flag set, any non-empty line fires the callback
exactly once and clears the flag. -/
theorem progressStep_of_updated (s : ProgressState) (hu : s.updated = true)
    (line : String) (hne : line ≠ "") :
    (progressStep s line).2.length = 1 ∧
    (progressStep s line).1.updated = false := by
  unfold progressStep
  rw [if_neg hne]
  cases hf : matchFrame line <;> cases hq : matchFps line <;>
    simp [hf, hq, hu]

/-- With the `updated` flag clear, a non-empty line fires the callback
exactly when it matches one of the two patterns, clearing the flag again;
a non-matching line leaves everything untouched. -/
theorem progressStep_of_cleared (s : ProgressState) (hu : s.updated = false)
    (line : String) (hne : line ≠ "") :
    (progressLine line = true →
      (progressStep s line).2.length = 1 ∧
      (progressStep s line).1.updated = false) ∧
    (progressLine line = false → progressStep s line = (s, [])) := by
  unfold progressStep
  rw [if_neg hne]
  constructor
  · intro hpl
    unfold progressLine at hpl
    cases hf : matchFrame line <;> cases hq : matchFps line
    all_goals try (simp [hf, hq] at hpl)
    all_goals simp [hf, hq, hu]
  · intro hpl
    unfold progressLine at hpl
    cases hf : matchFrame line <;> cases hq : matchFps line <;>
      simp [hf, hq, hu] at hpl ⊢

/-- From a state with a clear `updated` flag, the callback fires exactly
once per line matching the `frame=`/`fps=` patterns. -/
theorem progressRun_length (lines : List String) :
    ∀ s : ProgressState, s.updated = false → (∀ l ∈ lines, l ≠ "") →
      (progressRun s lines).length = (lines.filter progressLine).length := by
  induction lines with
  | nil => intro s _ _; rfl
  | cons l ls ih =>
      intro s hu hne
      have hlne : l ≠ "" := hne l (List.mem_cons_self _ _)
      have hrest : ∀ x ∈ ls, x ≠ "" :=
        fun x hx => hne x (List.mem_cons_of_mem _ hx)
      show (let p := progressStep s l; p.2 ++ progressRun p.1 ls).length =
        ((l :: ls).filter progressLine).length
      cases hpl : progressLine l with
      | true =>
          obtain ⟨hlen, hupd⟩ := (progressStep_of_cleared s hu l hlne).1 hpl
          simp only [List.length_append, hlen, ih _ hupd hrest,
            List.filter_cons, hpl, if_pos, List.length_cons]
          omega
      | false =>
          have hstep := (progressStep_of_cleared s hu l hlne).2 hpl
          simp only [hstep, List.filter_cons, hpl, ih _ hu hrest,
            List.nil_append, Bool.false_eq_true, if_false]

/-- C5 as the code actually behaves (the amended claim): over a stream of
non-empty stdout lines, the executor invokes the progress callback once for
the first line regardless of content (the `updated` flag starts `True`),
and afterwards exactly once per line matching the `frame=`/`fps=`
patterns — also when the parsed value has not changed. -/
theorem c5_progress_per_matching_line (lines : List String)
    (hne : ∀ l ∈ lines, l ≠ "") :
    (progressTrace lines).length =
      (match lines with
       | [] => 0
       | _ :: rest => 1 + (rest.filter progressLine).length) := by
  cases lines with
  | nil => rfl
  | cons l ls =>
      have hlne : l ≠ "" := hne l (List.mem_cons_self _ _)
      have hrest : ∀ x ∈ ls, x ≠ "" :=
        fun x hx => hne x (List.mem_cons_of_mem _ hx)
      show (let p := progressStep progressInit l;
        p.2 ++ progressRun p.1 ls).length = 1 + (ls.filter progressLine).length
      obtain ⟨hlen, hupd⟩ := progressStep_of_updated progressInit rfl l hlne
      simp only [List.length_append, hlen,
        progressRun_length ls _ hupd hrest]

/-- Witness for the amended C5: a three-line stream whose middle line
matches neither pattern produces exactly two callback invocations. -/
theorem c5_progress_per_matching_line_witness :
    (progressTrace ["frame=1", "junk", "fps=2.0"]).length = 2 := by
  have h := c5_progress_per_matching_line ["frame=1", "junk", "fps=2.0"]
    (by intro l hl; fin_cases hl <;> decide)
  rw [h]
  decide

/-- Counterexample to C5 as stated: the synthetic stream of repeated
identical `frame=100` / `fps=24.0` lines invokes the callback on every
line — four invocations, three of them with the already-seen value
`(100, 24.0)` — rather than once per changed value. -/
theorem c5_progress_coalescing_counterexample :
    progressTrace ["frame=100", "fps=24.0", "frame=100", "fps=24.0"] =
      [(100, 0), (100, 24), (100, 24), (100, 24)] ∧
    (progressTrace ["frame=100", "fps=24.0", "frame=100", "fps=24.0"]).length
      = 4 := by
  have h24 : matchFps "fps=24.0" = some 24 := by
    have h : matchFps "fps=24.0" =
        some ((24 : ℚ) + (0 : ℚ) / (10 ^ 1 : ℚ)) := rfl
    rw [h]
    norm_num
  have h100 : matchFrame "frame=100" = some 100 := by decide
  have hfr : matchFrame "fps=24.0" = none := by decide
  have hfp : matchFps "frame=100" = none := rfl
  constructor
  · simp [progressTrace, progressRun, progressStep, progressInit,
      h24, h100, hfr, hfp]
  · simp [progressTrace, progressRun, progressStep, progressInit,
      h24, h100, hfr, hfp]

theorem foldl_max_comm (ys : List ℚ) :
    ∀ x y : ℚ, ys.foldl max (max x y) = max x (ys.foldl max y) := by
  induction ys with
  | nil => intro x y; rfl
  | cons z zs ih =>
      intro x y
      show zs.foldl max (max (max x y) z) = max x (zs.foldl max (max y z))
      rw [max_assoc, ih]

theorem foldl_min_comm (ys : List ℚ) :
    ∀ x y : ℚ, ys.foldl min (min x y) = min x (ys.foldl min y) := by
  induction ys with
  | nil => intro x y; rfl
  | cons z zs ih =>
      intro x y
      show zs.foldl min (min (min x y) z) = min x (zs.foldl min (min y z))
      rw [min_assoc, ih]

/-- Python `max` over a nonempty list agrees with Mathlib's
`List.maximum`. -/
theorem pyMax_eq_maximum (xs : List ℚ) :
    ∀ x : ℚ, (x :: xs).maximum = (pyMax x xs : WithBot ℚ) := by
  induction xs with
  | nil => intro x; simp [pyMax, List.maximum_singleton]
  | cons y ys ih =>
      intro x
      rw [List.maximum_cons, ih y]
      have h : pyMax x (y :: ys) = max x (pyMax y ys) := foldl_max_comm ys x y
      rw [h, WithBot.coe_max]

/-- Python `min` over a nonempty list agrees with Mathlib's
`List.minimum`. -/
theorem pyMin_eq_minimum (xs : List ℚ) :
    ∀ x : ℚ, (x :: xs).minimum = (pyMin x xs : WithTop ℚ) := by
  induction xs with
  | nil => intro x; simp [pyMin, List.minimum_singleton]
  | cons y ys ih =>
      intro x
      rw [List.minimum_cons, ih y]
      have h : pyMin x (y :: ys) = min x (pyMin y ys) := foldl_min_comm ys x y
      rw [h, WithTop.coe_min]

/-- C2 amended: the candidate reduction behaves as the claim says except
that the multi-element average is the *floor* of the mean (Python float
floor division) and the final frame count is Python `int()` *truncation
toward zero* of `durationSeconds * fps` — which agree with the claim's
"integer-truncated average" and "floor" on the nonnegative values durations
take in practice, but not on negative values. -/
theorem c2_duration_reduction (mDURATION mduration : Option ℚ)
    (tracks : List Track) :
    trim_to_one [] = none ∧
    (∀ x : ℚ, trim_to_one [x] = some x) ∧
    (∀ (x y : ℚ) (ys : List ℚ) (mx mn : ℚ),
      (x :: y :: ys).maximum = (mx : WithBot ℚ) →
      (x :: y :: ys).minimum = (mn : WithTop ℚ) →
      (mx - mn > mx * (1 / 100) →
        trim_to_one (x :: y :: ys) =
          some ((⌊(x :: y :: ys).sum / ((x :: y :: ys).length : ℚ)⌋ : ℤ) : ℚ)) ∧
      (¬ mx - mn > mx * (1 / 100) →
        trim_to_one (x :: y :: ys) = some x)) ∧
    (∀ d fr : ℚ,
      trim_to_one (collectDurations mDURATION mduration tracks) = some d →
      trim_to_one (collectFps tracks) = some fr →
      estimateDuration mDURATION mduration tracks = ⟨d, pyInt (d * fr), fr⟩) ∧
    ((trim_to_one (collectDurations mDURATION mduration tracks) = none ∨
      trim_to_one (collectFps tracks) = none) →
      estimateDuration mDURATION mduration tracks = ⟨0, 0, 0⟩) := by
  refine ⟨rfl, fun x => rfl, ?_, ?_, ?_⟩
  · intro x y ys mx mn hmx hmn
    have hmax : pyMax x (y :: ys) = mx := by
      rw [pyMax_eq_maximum (y :: ys) x] at hmx
      exact_mod_cast hmx
    have hmin : pyMin x (y :: ys) = mn := by
      rw [pyMin_eq_minimum (y :: ys) x] at hmn
      exact_mod_cast hmn
    have ht : trim_to_one (x :: y :: ys) =
        if pyMax x (y :: ys) - pyMin x (y :: ys) >
            pyMax x (y :: ys) * (1 / 100) then
          some (pyFloorDiv (x + (y :: ys).sum) ((y :: ys).length + 1))
        else some x := rfl
    rw [ht, hmax, hmin]
    constructor
    · intro hgt
      rw [if_pos hgt]
      simp [pyFloorDiv, List.sum_cons, add_assoc]
    · intro hle
      rw [if_neg hle]
  · intro d fr hd hfr
    unfold estimateDuration
    rw [hd, hfr]
  · intro h
    unfold estimateDuration
    rcases h with h | h
    · rw [h]
    · rw [h]
      cases trim_to_one (collectDurations mDURATION mduration tracks) <;> rfl

/-- Witness for the amended C2: `[10, 20, 30]` exceeds the 1% spread and
reduces to the floored average `20`; a container with a duration tag but no
video track collapses to the `(0, 0, 0)` sentinel. -/
theorem c2_duration_reduction_witness :
    trim_to_one [10, 20, 30] = some 20 ∧
    estimateDuration (some 3) none [] = ⟨0, 0, 0⟩ := by
  have hmax : (((10 : ℚ) :: 20 :: [30]).maximum) = ((30 : ℚ) : WithBot ℚ) := by
    rw [pyMax_eq_maximum]
    norm_num [pyMax, max_eq_right]
  have hmin : (((10 : ℚ) :: 20 :: [30]).minimum) = ((10 : ℚ) : WithTop ℚ) := by
    rw [pyMin_eq_minimum]
    norm_num [pyMin, min_eq_left]
  have h3 := ((c2_duration_reduction (some 3) none []).2.2.1
    10 20 [30] 30 10 hmax hmin).1 (by norm_num)
  have h0 := (c2_duration_reduction (some 3) none []).2.2.2.2 (Or.inr rfl)
  refine ⟨?_, h0⟩
  rw [h3]
  norm_num

/-- The concrete video track used in the duration counterexamples: a
non-H.265 video track with frame rate 1 and no own duration. -/
def h264TrackFps1 : Track := .video ⟨0, "h264", "und", "default", 0, true⟩ 1

theorem collectDurations_single (q : ℚ) :
    collectDurations (some q) none [h264TrackFps1] = [q] := by
  simp [collectDurations, h264TrackFps1, Track.duration, Track.base]

theorem collectFps_single :
    collectFps [h264TrackFps1] = [1] := by
  simp [collectFps, h264TrackFps1]

theorem estimateDuration_single (q : ℚ) :
    estimateDuration (some q) none [h264TrackFps1] = ⟨q, pyInt (q * 1), 1⟩ := by
  unfold estimateDuration
  rw [collectDurations_single, collectFps_single]
  rfl

/-- Counterexample to C2 as stated: with a (parseable) negative `DURATION`
tag of `-1.5` seconds and a video track of frame rate 1, the code's
`int(duration_sec * frame_rate)` gives `-1` while the claim's
`floor(durationSeconds * fps)` would be `-2`. -/
theorem c2_duration_reduction_counterexample :
    (estimateDuration (some (-3 / 2)) none [h264TrackFps1]).frames = -1 ∧
    ⌊(estimateDuration (some (-3 / 2)) none [h264TrackFps1]).seconds *
      (estimateDuration (some (-3 / 2)) none [h264TrackFps1]).fps⌋ = -2 := by
  rw [estimateDuration_single]
  constructor
  · show pyInt (-3 / 2 * 1) = -1
    rw [show (-3 / 2 * 1 : ℚ) = -3 / 2 by ring]
    unfold pyInt
    rw [if_neg (by norm_num)]
    rw [Int.ceil_eq_iff]
    constructor <;> norm_num
  · show ⌊(-3 / 2 * 1 : ℚ)⌋ = -2
    rw [show (-3 / 2 * 1 : ℚ) = -3 / 2 by ring]
    rw [Int.floor_eq_iff]
    constructor <;> norm_num

/-- C9 amended: `durationFrames` is the Python `int()` truncation toward
zero of `durationSeconds * fps` (not `round`), and the triple is
`(0, 0, 0)` when either reduced quantity is unknown. -/
theorem c9_frames_truncation (mDURATION mduration : Option ℚ)
    (tracks : List Track) :
    (estimateDuration mDURATION mduration tracks).frames =
      pyInt ((estimateDuration mDURATION mduration tracks).seconds *
             (estimateDuration mDURATION mduration tracks).fps) ∧
    ((trim_to_one (collectDurations mDURATION mduration tracks) = none ∨
      trim_to_one (collectFps tracks) = none) →
      estimateDuration mDURATION mduration tracks = ⟨0, 0, 0⟩) := by
  constructor
  · unfold estimateDuration
    cases hd : trim_to_one (collectDurations mDURATION mduration tracks) with
    | none =>
        cases hf : trim_to_one (collectFps tracks) with
        | none => show (0 : ℤ) = pyInt (0 * 0); norm_num [pyInt]
        | some fr => show (0 : ℤ) = pyInt (0 * 0); norm_num [pyInt]
    | some d =>
        cases hf : trim_to_one (collectFps tracks) with
        | none => show (0 : ℤ) = pyInt (0 * 0); norm_num [pyInt]
        | some fr => rfl
  · intro h
    unfold estimateDuration
    rcases h with h | h
    · rw [h]
    · rw [h]
      cases trim_to_one (collectDurations mDURATION mduration tracks) <;> rfl

/-- Witness for the amended C9: a container with no tracks at all yields
the `(0, 0, 0)` sentinel. -/
theorem c9_frames_truncation_witness :
    estimateDuration none none [] = ⟨0, 0, 0⟩ :=
  (c9_frames_truncation none none []).2 (Or.inl rfl)

/-- Counterexample to C9 as stated: with a `DURATION` tag of `1.5` seconds
and a video track of frame rate 1, the code's `int(duration_sec *
frame_rate)` gives `1` while the claim's `round(durationSeconds * fps)`
would be `2`. -/
theorem c9_frames_rounding_counterexample :
    (estimateDuration (some (3 / 2)) none [h264TrackFps1]).frames = 1 ∧
    round ((estimateDuration (some (3 / 2)) none [h264TrackFps1]).seconds *
           (estimateDuration (some (3 / 2)) none [h264TrackFps1]).fps) = 2 := by
  rw [estimateDuration_single]
  constructor
  · show pyInt (3 / 2 * 1) = 1
    rw [show (3 / 2 * 1 : ℚ) = 3 / 2 by ring]
    unfold pyInt
    rw [if_pos (by norm_num)]
    rw [Int.floor_eq_iff]
    constructor <;> norm_num
  · show round (3 / 2 * 1 : ℚ) = 2
    rw [show (3 / 2 * 1 : ℚ) = 3 / 2 by ring, round_eq]
    rw [show (3 / 2 + 1 / 2 : ℚ) = 2 by norm_num]
    norm_num

/-- One loop iteration appends exactly the track's contribution. -/
theorem remuxTrackStep_eq (c p tu pr : String) (args : List String)
    (t : Track) :
    remuxTrackStep c p tu pr args t = args ++ trackContribution c p tu pr t := by
  cases t with
  | video b fr =>
      cases hh : Track.is_h265 (Track.video b fr) <;>
        cases hk : (Track.video b fr).keep <;>
          simp [remuxTrackStep, trackContribution, video_to_hevc, video_as_is,
            keep_track, hh, hk, List.append_assoc]
  | audio b ch =>
      cases hk : (Track.audio b ch).keep <;>
        simp [remuxTrackStep, trackContribution, keep_track, hk]
  | subtitle b =>
      cases hk : (Track.subtitle b).keep <;>
        simp [remuxTrackStep, trackContribution, keep_track, hk]
  | attachment b =>
      cases hk : (Track.attachment b).keep <;>
        simp [remuxTrackStep, trackContribution, keep_track, hk]

/-- The whole loop is the concatenation of per-track contributions. -/
theorem buildTrackArgs_eq (c p tu pr : String) (tracks : List Track) :
    ∀ init : List String,
      buildTrackArgs c p tu pr init tracks =
        init ++ tracks.flatMap (trackContribution c p tu pr) := by
  induction tracks with
  | nil => intro init; simp [buildTrackArgs]
  | cons t ts ih =>
      intro init
      show buildTrackArgs c p tu pr (remuxTrackStep c p tu pr init t) ts = _
      rw [ih, remuxTrackStep_eq]
      simp [List.append_assoc]

/-- `-map` is not among the re-encoding flags when none of the four
caller-supplied values is the string `-map`. -/
theorem mapNotInEncoder (codecName preset tune profile : String)
    (hnm : "-map" ∉ [codecName, preset, tune, profile]) :
    "-map" ∉ ["-c:v", codecName, "-preset", preset, "-tune", tune,
      "-profile:v", profile, "-vtag", "hvc1"] := by
  intro h
  simp only [List.mem_cons, List.not_mem_nil, or_false] at h hnm
  push_neg at hnm
  obtain ⟨h1, h2, h3, h4⟩ := hnm
  rcases h with h | h | h | h | h | h | h | h | h | h <;>
    first
      | exact absurd h (by decide)
      | exact h1 h
      | exact h2 h
      | exact h3 h
      | exact h4 h

/-- A `0:<index>` mapping operand never collides with a flag token
starting with a dash. -/
theorem zeroColon_ne (s t : String) (ht : t.data.head? = some '-') :
    "0:" ++ s ≠ t := by
  intro h
  have hd := congrArg String.data h
  rw [String.data_append] at hd
  have hcons : '0' :: ':' :: s.data = t.data := hd
  rw [← hcons] at ht
  simp at ht

/-- A token that is none of `-c:v`, `copy`, `-map` and no `0:<operand>` is
absent from a stream-copied video track contribution. -/
theorem flagToken_notin (tok s : String)
    (h1 : tok ≠ "-c:v") (hc : tok ≠ "copy") (h3 : tok ≠ "-map")
    (h4 : ∀ u, tok ≠ "0:" ++ u) (keep : Bool) :
    tok ∉ ["-c:v", "copy"] ++ (if keep then ["-map", "0:" ++ s] else []) := by
  intro hmem
  rcases List.mem_append.mp hmem with h | h
  · rcases List.mem_cons.mp h with h | h
    · exact h1 h
    rcases List.mem_cons.mp h with h | h
    · exact hc h
    · exact absurd h (List.not_mem_nil _)
  · cases keep with
    | true =>
        rw [if_pos rfl] at h
        rcases List.mem_cons.mp h with h | h
        · exact h3 h
        rcases List.mem_cons.mp h with h | h
        · exact h4 _ h
        · exact absurd h (List.not_mem_nil _)
    | false =>
        simp at h

/-- C3: in the remux argv, a track with `keep = false` contributes no
`-map 0:<streamIndex>` token while a track with `keep = true` contributes
exactly that `-map` token; a video track that is already H.265 yields
`-c:v copy` and none of the `-preset`/`-tune`/`-profile:v` encoder flags,
and only video tracks that are not H.265 yield the encoder flags. -/
theorem c3_remux_argv (codecName preset tune profile : String)
    (init : List String) (tracks : List Track)
    (hnm : "-map" ∉ [codecName, preset, tune, profile]) :
    buildTrackArgs codecName preset tune profile init tracks =
      init ++ tracks.flatMap (trackContribution codecName preset tune profile) ∧
    (∀ t : Track, t.keep = false →
      "-map" ∉ trackContribution codecName preset tune profile t) ∧
    (∀ t : Track, t.keep = true →
      ∃ pre, trackContribution codecName preset tune profile t =
          pre ++ ["-map", "0:" ++ toString t.index] ∧
        "-map" ∉ pre) ∧
    (∀ (b : TrackBase) (fr : ℚ), (Track.video b fr).is_h265 = true →
      trackContribution codecName preset tune profile (.video b fr) =
        ["-c:v", "copy"] ++
          (if b.keep then ["-map", "0:" ++ toString b.index] else []) ∧
      "-preset" ∉ trackContribution codecName preset tune profile (.video b fr) ∧
      "-tune" ∉ trackContribution codecName preset tune profile (.video b fr) ∧
      "-profile:v" ∉
        trackContribution codecName preset tune profile (.video b fr)) ∧
    (∀ (b : TrackBase) (fr : ℚ), (Track.video b fr).is_h265 = false →
      trackContribution codecName preset tune profile (.video b fr) =
        ["-c:v", codecName, "-preset", preset, "-tune", tune,
         "-profile:v", profile, "-vtag", "hvc1"] ++
          (if b.keep then ["-map", "0:" ++ toString b.index] else [])) := by
  refine ⟨buildTrackArgs_eq codecName preset tune profile tracks init,
    ?_, ?_, ?_, ?_⟩
  · intro t hk
    cases t with
    | video b fr =>
        simp only [Track.keep, Track.base] at hk
        cases hh : Track.is_h265 (Track.video b fr) with
        | true =>
            have heq : trackContribution codecName preset tune profile
                (.video b fr) = ["-c:v", "copy"] := by
              simp [trackContribution, hh, Track.keep, Track.base, hk]
            rw [heq]
            decide
        | false =>
            have heq : trackContribution codecName preset tune profile
                (.video b fr) =
                ["-c:v", codecName, "-preset", preset, "-tune", tune,
                 "-profile:v", profile, "-vtag", "hvc1"] := by
              simp [trackContribution, hh, Track.keep, Track.base, hk]
            rw [heq]
            exact mapNotInEncoder codecName preset tune profile hnm
    | audio b ch =>
        simp only [Track.keep, Track.base] at hk
        simp [trackContribution, Track.keep, Track.base, hk]
    | subtitle b =>
        simp only [Track.keep, Track.base] at hk
        simp [trackContribution, Track.keep, Track.base, hk]
    | attachment b =>
        simp only [Track.keep, Track.base] at hk
        simp [trackContribution, Track.keep, Track.base, hk]
  · intro t hk
    cases t with
    | video b fr =>
        simp only [Track.keep, Track.base] at hk
        cases hh : Track.is_h265 (Track.video b fr) with
        | true =>
            refine ⟨["-c:v", "copy"], ?_, by decide⟩
            simp [trackContribution, hh, Track.keep, Track.base, Track.index, hk]
        | false =>
            refine ⟨["-c:v", codecName, "-preset", preset, "-tune", tune,
              "-profile:v", profile, "-vtag", "hvc1"], ?_,
              mapNotInEncoder codecName preset tune profile hnm⟩
            simp [trackContribution, hh, Track.keep, Track.base, Track.index, hk]
    | audio b ch =>
        simp only [Track.keep, Track.base] at hk
        refine ⟨[], ?_, by simp⟩
        simp [trackContribution, Track.keep, Track.base, Track.index, hk]
    | subtitle b =>
        simp only [Track.keep, Track.base] at hk
        refine ⟨[], ?_, by simp⟩
        simp [trackContribution, Track.keep, Track.base, Track.index, hk]
    | attachment b =>
        simp only [Track.keep, Track.base] at hk
        refine ⟨[], ?_, by simp⟩
        simp [trackContribution, Track.keep, Track.base, Track.index, hk]
  · intro b fr hh
    have heq : trackContribution codecName preset tune profile (.video b fr) =
        ["-c:v", "copy"] ++
          (if b.keep then ["-map", "0:" ++ toString b.index] else []) := by
      simp [trackContribution, hh, Track.keep, Track.base, Track.index]
    refine ⟨heq, ?_, ?_, ?_⟩ <;> rw [heq]
    · exact flagToken_notin "-preset" (toString b.index) (by decide) (by decide)
        (by decide) (fun u h => zeroColon_ne u "-preset" rfl h.symm) b.keep
    · exact flagToken_notin "-tune" (toString b.index) (by decide) (by decide)
        (by decide) (fun u h => zeroColon_ne u "-tune" rfl h.symm) b.keep
    · exact flagToken_notin "-profile:v" (toString b.index) (by decide)
        (by decide) (by decide)
        (fun u h => zeroColon_ne u "-profile:v" rfl h.symm) b.keep
  · intro b fr hh
    simp [trackContribution, hh, Track.keep, Track.base, Track.index]

/-- The sample track list for the C3 witness: an H.264 video track (kept),
an HEVC video track (kept) and a dropped audio track. -/
def witnessTracks : List Track :=
  [Track.video ⟨0, "h264", "und", "default", 0, true⟩ 24,
   Track.video ⟨1, "hevc", "und", "default", 0, true⟩ 24,
   Track.audio ⟨2, "aac", "eng", "default", 0, false⟩ 2]

/-- Witness for C3, at the real catalog values: the H.264 track is
re-encoded and mapped, the HEVC track is stream-copied and mapped, and the
dropped audio track contributes nothing at all. -/
theorem c3_remux_argv_witness :
    buildTrackArgs "hevc_nvenc" "p6" "hq" "main" ["ffmpeg", "-i", "in.mkv", "-y"]
      witnessTracks =
      ["ffmpeg", "-i", "in.mkv", "-y",
       "-c:v", "hevc_nvenc", "-preset", "p6", "-tune", "hq",
       "-profile:v", "main", "-vtag", "hvc1", "-map", "0:0",
       "-c:v", "copy", "-map", "0:1"] := by
  have h := (c3_remux_argv "hevc_nvenc" "p6" "hq" "main"
    ["ffmpeg", "-i", "in.mkv", "-y"] witnessTracks (by decide)).1
  rw [h]
  have h264 : Track.is_h265 (Track.video ⟨0, "h264", "und", "default", 0, true⟩
      (24 : ℚ)) = false := by decide
  have hhevc : Track.is_h265 (Track.video ⟨1, "hevc", "und", "default", 0, true⟩
      (24 : ℚ)) = true := by decide
  simp [witnessTracks, trackContribution, h264, hhevc, Track.keep, Track.base,
    Track.index]
  constructor <;> decide

end Trimmer
